import Mathlib

/-!
Verification development for GateMiniCRM (src/GateMiniCRM.py) and its
pack-based sync specification.

Definitions are shallow embeddings of the Python source.  The merge engine
lives in the external `gate_sync` module, which is not part of src/; those
definitions are modelled from the spec and marked as such in their doc
comments.
-/

namespace GateMiniCRM

/-! ## Settings store (src/GateMiniCRM.py, `get_setting` / `set_setting`)

The `settings` table has `key TEXT PRIMARY KEY, value TEXT`.  We model it as
an association list in insertion order.  `REPLACE INTO` deletes any row with
the same primary key and inserts the new row. -/

/-- `get_setting(conn, key)`: `SELECT value FROM settings WHERE key=?`,
returning the value of the first matching row, or `None`. -/
def get_setting (settings : List (String × String)) (key : String) : Option String :=
  (settings.find? (fun p => p.1 == key)).map (fun p => p.2)

/-- `set_setting(conn, key, value)`: `REPLACE INTO settings(key,value)
VALUES(?,?)` followed by `commit` — any existing row with the same key is
replaced. -/
def set_setting (settings : List (String × String)) (key value : String) :
    List (String × String) :=
  (settings.filter (fun p => !(p.1 == key))) ++ [(key, value)]

/-- C8: `set_setting` followed by `get_setting` on the same key returns the
value just written, whether or not the key already had a value; `get_setting`
on a key never set returns `None`. -/
theorem settings_roundtrip (s : List (String × String)) (k v : String) :
    get_setting (set_setting s k v) k = some v ∧
      ((∀ p ∈ s, p.1 ≠ k) → get_setting s k = none) := by
  constructor
  · unfold get_setting set_setting
    rw [List.find?_append]
    have hnone : (s.filter (fun p => !(p.1 == k))).find? (fun p => p.1 == k) = none := by
      rw [List.find?_eq_none]
      intro x hx
      have hx' := List.mem_filter.mp hx
      simp only [Bool.not_eq_true'] at hx'
      simp [hx'.2]
    rw [hnone]
    simp
  · intro h
    unfold get_setting
    have hnone : s.find? (fun p => p.1 == k) = none := by
      rw [List.find?_eq_none]
      intro x hx
      simp [h x hx]
    rw [hnone]
    rfl

/-- Witness for C8 at concrete inputs. -/
theorem settings_roundtrip_witness :
    get_setting (set_setting [("a", "b")] "k" "v") "k" = some "v" ∧
      get_setting [("a", "b")] "k" = none :=
  ⟨(settings_roundtrip [("a", "b")] "k" "v").1,
   (settings_roundtrip [("a", "b")] "k" "v").2 (by decide)⟩

/-! ## Passcode gate (src/GateMiniCRM.py, `hash_pass` / `ensure_passcode`)

`hash_pass(passcode, salt) = sha256(salt + passcode)` is treated as an
uninterpreted function parameter `hashp`.  Dialog interaction is modelled
by a
stream of responses: `simpledialog.askstring` yields `some s` for an entry
and `none` for cancel; an exhausted stream behaves as cancel.  Python
truthiness of an optional string (`if not stored:`) is `pyFalsy`. -/

/-- Python truthiness test for an optional string: `None` and `""` are falsy. -/
def pyFalsy : Option String → Bool
  | none => true
  | some s => s == ""

/-- The `for _ in range(3)` unlock loop of `ensure_passcode`: prompt, return
`False` on cancel, `True` on a matching entry, otherwise retry; after the
loop, `False`.  Returns the result together with the number of prompts shown. -/
def tryUnlock (hashp : String → String → String) (stored salt : String) :
    Nat → List (Option String) → Bool × Nat
  | 0, _ => (false, 0)
  | _ + 1, [] => (false, 1)
  | _ + 1, none :: _ => (false, 1)
  | n + 1, some p :: rest =>
    if hashp p salt == stored then (true, 1)
    else
      let r := tryUnlock hashp stored salt n rest
      (r.1, r.2 + 1)

/-- The `while True` passcode-creation loop of `ensure_passcode`: prompt for
a passcode and a confirmation; on cancel break; on mismatch show an error and
retry; on match store `pass_salt` and `pass_hash`.  The `salt` argument
models `secrets.token_hex(8)`. -/
def setupLoop (hashp : String → String → String) (salt : String)
    (settings : List (String × String)) :
    List (Option String) → List (String × String)
  | [] => settings
  | none :: _ => settings
  | some _ :: [] => settings
  | some _ :: none :: rest => setupLoop hashp salt settings rest
  | some p1 :: some p2 :: rest =>
    if p2 == p1 then
      set_setting (set_setting settings "pass_salt" salt) "pass_hash" (hashp p1 salt)
    else setupLoop hashp salt settings rest

/-- `ensure_passcode(conn, root)`: if no (truthy) `pass_hash` is stored,
optionally walk the creation dialog (`wantSet` models the yes/no answer) and
return `True`; otherwise run the three-attempt unlock loop against the stored
hash, with salt `get_setting(conn, "pass_salt") or ""`. -/
def ensure_passcode (hashp : String → String → String)
    (settings : List (String × String)) (wantSet : Bool) (salt : String)
    (inputs : List (Option String)) : Bool × List (String × String) :=
  let stored := get_setting settings "pass_hash"
  if pyFalsy stored then
    if wantSet then (true, setupLoop hashp salt settings inputs) else (true, settings)
  else
    let sa := (get_setting settings "pass_salt").getD ""
    ((tryUnlock hashp (stored.getD "") sa 3 inputs).1, settings)

/-- Position `k` of the response stream holds an entry whose hash matches the
stored hash. -/
def entryRight (hashp : String → String → String) (stored salt : String)
    (inputs : List (Option String)) (k : Nat) : Bool :=
  match inputs.get? k with
  | some (some p) => hashp p salt == stored
  | _ => false

/-- Position `k` of the response stream holds an entry whose hash does not
match the stored hash (a cancel or a missing response is not a wrong entry —
it stops the loop instead). -/
def entryWrong (hashp : String → String → String) (stored salt : String)
    (inputs : List (Option String)) (k : Nat) : Bool :=
  match inputs.get? k with
  | some (some p) => !(hashp p salt == stored)
  | _ => false

/-- Success criterion for the locked branch: one of the at most three
consumed entries matches the stored hash, and every earlier consumed entry
is a wrong (non-cancel) entry. -/
def unlockOk (hashp : String → String → String) (stored salt : String)
    (inputs : List (Option String)) : Bool :=
  entryRight hashp stored salt inputs 0 ||
    (entryWrong hashp stored salt inputs 0 && entryRight hashp stored salt inputs 1) ||
    (entryWrong hashp stored salt inputs 0 && entryWrong hashp stored salt inputs 1 &&
      entryRight hashp stored salt inputs 2)

/-- The unlock loop with fuel `n` shows at most `n` prompts. -/
theorem tryUnlock_prompts_le (hashp : String → String → String)
    (stored salt : String) :
    ∀ (n : Nat) (inputs : List (Option String)),
      (tryUnlock hashp stored salt n inputs).2 ≤ n := by
  intro n
  induction n with
  | zero => intro inputs; simp [tryUnlock]
  | succ m ih =>
    intro inputs
    match inputs with
    | [] => simp [tryUnlock]
    | none :: rest => simp [tryUnlock]
    | some p :: rest =>
      by_cases h : hashp p salt == stored
      · simp [tryUnlock, h]
      · simp only [tryUnlock, h]
        simp only [Bool.false_eq_true, if_false]
        have := ih rest
        omega

/-- C9: when a `pass_hash` is stored (non-falsy), `ensure_passcode` succeeds
exactly when one of the at most three entered strings hashes to the stored
hash with the stored salt (empty string when absent), prompting at most three
times; when no `pass_hash` is stored it returns `True` regardless of the
dialog outcomes. -/
theorem passcode_gate (hashp : String → String → String)
    (settings : List (String × String)) (wantSet : Bool) (salt : String)
    (inputs : List (Option String)) :
    (pyFalsy (get_setting settings "pass_hash") = true →
      (ensure_passcode hashp settings wantSet salt inputs).1 = true) ∧
    (∀ stored, get_setting settings "pass_hash" = some stored → stored ≠ "" →
      (ensure_passcode hashp settings wantSet salt inputs).1 =
          unlockOk hashp stored ((get_setting settings "pass_salt").getD "") inputs ∧
        (tryUnlock hashp stored ((get_setting settings "pass_salt").getD "") 3 inputs).2 ≤ 3) := by
  constructor
  · intro h
    unfold ensure_passcode
    simp only [h, if_true]
    by_cases hw : wantSet <;> simp [hw]
  · intro stored hst hne
    have hfal : pyFalsy (get_setting settings "pass_hash") = false := by
      rw [hst]; simp [pyFalsy, hne]
    constructor
    · unfold ensure_passcode
      rw [hst]
      have hf2 : pyFalsy (some stored) = false := by simp [pyFalsy, hne]
      simp only [hf2, Bool.false_eq_true, if_false, Option.getD_some]
      set sa := (get_setting settings "pass_salt").getD "" with hsa
      match inputs with
      | [] => simp [tryUnlock, unlockOk, entryRight, entryWrong]
      | none :: r => simp [tryUnlock, unlockOk, entryRight, entryWrong]
      | [some a] =>
        by_cases ha : hashp a sa == stored <;>
          simp [tryUnlock, unlockOk, entryRight, entryWrong, ha]
      | [some a, none] =>
        by_cases ha : hashp a sa == stored <;>
          simp [tryUnlock, unlockOk, entryRight, entryWrong, ha]
      | [some a, some b] =>
        by_cases ha : hashp a sa == stored <;>
          by_cases hb : hashp b sa == stored <;>
            simp [tryUnlock, unlockOk, entryRight, entryWrong, ha, hb]
      | some a :: none :: r => by_cases ha : hashp a sa == stored <;>
          simp [tryUnlock, unlockOk, entryRight, entryWrong, ha]
      | some a :: some b :: none :: r =>
        by_cases ha : hashp a sa == stored <;>
          by_cases hb : hashp b sa == stored <;>
            simp [tryUnlock, unlockOk, entryRight, entryWrong, ha, hb]
      | some a :: some b :: some c :: r =>
        by_cases ha : hashp a sa == stored <;>
          by_cases hb : hashp b sa == stored <;>
            by_cases hc : hashp c sa == stored <;>
              simp [tryUnlock, unlockOk, entryRight, entryWrong, ha, hb, hc]
    · exact tryUnlock_prompts_le hashp stored _ 3 inputs

/-- Witness for C9 at concrete inputs: a stored hash `"SA:PW"` with salt
`"SA:"` under the hash function `fun p s => s ++ p`; the first entry is
wrong, the second matches, so the gate opens; and the empty-settings case
returns `True`. -/
theorem passcode_gate_witness :
    (ensure_passcode (fun p s => s ++ p)
        [("pass_hash", "SA:PW"), ("pass_salt", "SA:")] true "z"
        [some "x", some "PW"]).1 =
      unlockOk (fun p s => s ++ p) "SA:PW" "SA:" [some "x", some "PW"] ∧
    (ensure_passcode (fun p s => s ++ p) [] true "z" []).1 = true := by
  constructor
  · have h := (passcode_gate (fun p s => s ++ p)
      [("pass_hash", "SA:PW"), ("pass_salt", "SA:")] true "z"
      [some "x", some "PW"]).2 "SA:PW" (by decide) (by decide)
    exact h.1
  · exact (passcode_gate (fun p s => s ++ p) [] true "z" []).1 (by decide)

/-! ## Change Records and the local database

The Change Record format follows spec §6 (the pack line format); the record
type is shared between the change log observed by the editing surface and
the modelled merge engine. -/

abbrev DeviceId := String
abbrev RowKey := String
abbrev FieldName := String

/-- The three tracked operations of a Change Record. -/
inductive SyncOp
  | ins
  | upd
  | del
deriving DecidableEq

/-- Modelled from the spec: §6 pack line format
`{device_id, sequence, table, row_key, operation, changed_fields, timestamp,
origin_device_id, origin_sequence}`; the change-record store itself lives in
the external `gate_sync` module, absent from src/. -/
structure ChangeRecord where
  device_id : DeviceId
  sequence : Nat
  table : String
  row_key : RowKey
  operation : SyncOp
  changed_fields : List (FieldName × String)
  timestamp : Nat
  origin_device_id : DeviceId
  origin_sequence : Nat
deriving DecidableEq

/-- A row of `companies` (src/GateMiniCRM.py, `init_db`):
`id INTEGER PRIMARY KEY AUTOINCREMENT, name, phone, email, website, address`. -/
structure CompanyRow where
  id : Nat
  name : String
  phone : String
  email : String
  website : String
  address : String
deriving DecidableEq

/-- A row of `contacts` (src/GateMiniCRM.py, `init_db`):
`id INTEGER PRIMARY KEY AUTOINCREMENT, company_id, name, title, email, phone`. -/
structure ContactRow where
  id : Nat
  company_id : Option Nat
  name : String
  title : String
  email : String
  phone : String
deriving DecidableEq

/-- A row of `deals`, restricted to the columns the verified operations
touch (`id INTEGER PRIMARY KEY AUTOINCREMENT, company_id, title, ...`). -/
structure DealRow where
  id : Nat
  company_id : Nat
  title : String
deriving DecidableEq

/-- The SQLite store as seen by the editing surface, plus the change log the
spec requires Capture to append to.  `nextCompanyId` / `nextContactId` model
the `AUTOINCREMENT` counters (`cur.lastrowid`). -/
structure AppDb where
  companies : List CompanyRow
  contacts : List ContactRow
  deals : List DealRow
  changeLog : List ChangeRecord
  nextCompanyId : Nat
  nextContactId : Nat
deriving DecidableEq

/-! ## CSV import (src/GateMiniCRM.py, `ask_import_csv`)

A `csv.DictReader` row is an association list from column name to cell
value; `r.get(key)` is `None` when the column is absent. -/

/-- A parsed CSV record, as produced by `csv.DictReader`. -/
abbrev CsvRecord := List (String × String)

/-- `r.get(key)`: the cell under `key`, or `None` when the column is absent. -/
def rget (r : CsvRecord) (key : String) : Option String :=
  (r.find? (fun p => p.1 == key)).map (fun p => p.2)

/-- Python `a or b` for an optional string `a` and string fallback `b`:
`None` and `""` are falsy. -/
def pyOr (a : Option String) (b : String) : String :=
  match a with
  | some s => if s == "" then b else s
  | none => b

/-- Python `str.strip()`: drop leading and trailing whitespace. -/
def pyStrip (s : String) : String :=
  ⟨((s.data.dropWhile Char.isWhitespace).reverse.dropWhile Char.isWhitespace).reverse⟩

/-- `(r.get('name') or r.get('Name') or '').strip()`. -/
def nameOf (r : CsvRecord) : String :=
  pyStrip (pyOr (rget r "name") (pyOr (rget r "Name") ""))

/-- `(r.get('company') or r.get('Company') or '').strip()`. -/
def companyNameOf (r : CsvRecord) : String :=
  pyStrip (pyOr (rget r "company") (pyOr (rget r "Company") ""))

/-- One iteration of the `kind == "companies"` import loop: skip the record
when the name is empty, otherwise `INSERT INTO companies(name, phone, email,
website, address)` and count it. -/
def importCompaniesRec (db : AppDb) (r : CsvRecord) : AppDb × Nat :=
  let name := nameOf r
  if name == "" then (db, 0)
  else
    ({ db with
        companies := db.companies ++
          [⟨db.nextCompanyId, name, pyOr (rget r "phone") "",
            pyOr (rget r "email") "", pyOr (rget r "website") "",
            pyOr (rget r "address") ""⟩],
        nextCompanyId := db.nextCompanyId + 1 }, 1)

/-- One iteration of the `kind == "contacts"` import loop: skip when the
name is empty; resolve the company by exact name (`SELECT id FROM companies
WHERE name=?`), creating a name-only company when no match exists
(`cur.lastrowid`); then insert the contact. -/
def importContactsRec (db : AppDb) (r : CsvRecord) : AppDb × Nat :=
  let name := nameOf r
  if name == "" then (db, 0)
  else
    let company := companyNameOf r
    let resolved : AppDb × Option Nat :=
      if company == "" then (db, none)
      else
        match db.companies.find? (fun c => c.name == company) with
        | some c => (db, some c.id)
        | none =>
          ({ db with
              companies := db.companies ++ [⟨db.nextCompanyId, company, "", "", "", ""⟩],
              nextCompanyId := db.nextCompanyId + 1 }, some db.nextCompanyId)
    let db1 := resolved.1
    ({ db1 with
        contacts := db1.contacts ++
          [⟨db1.nextContactId, resolved.2, name, pyOr (rget r "title") "",
            pyOr (rget r "email") "", pyOr (rget r "phone") ""⟩],
        nextContactId := db1.nextContactId + 1 }, 1)

/-- The two CSV import kinds wired to the File menu. -/
inductive CsvKind
  | companies
  | contacts
deriving DecidableEq

/-- The per-record insert step for a given import kind. -/
def csvStep : CsvKind → AppDb → CsvRecord → AppDb × Nat
  | .companies => importCompaniesRec
  | .contacts => importContactsRec

/-- `ask_import_csv(kind, conn)`: fold the reader's records through the
per-kind insert step, counting `added`, then commit. -/
def ask_import_csv (kind : CsvKind) (records : List CsvRecord) (db : AppDb) :
    AppDb × Nat :=
  records.foldl
    (fun acc r => ((csvStep kind acc.1 r).1, acc.2 + (csvStep kind acc.1 r).2))
    (db, 0)

/-- A single companies step inserts exactly as many company rows as it
counts. -/
theorem importCompaniesRec_length (db : AppDb) (r : CsvRecord) :
    (importCompaniesRec db r).1.companies.length =
      db.companies.length + (importCompaniesRec db r).2 := by
  unfold importCompaniesRec
  by_cases h : nameOf r == "" <;> simp [h]

/-- A single contacts step inserts exactly as many contact rows as it
counts. -/
theorem importContactsRec_length (db : AppDb) (r : CsvRecord) :
    (importContactsRec db r).1.contacts.length =
      db.contacts.length + (importContactsRec db r).2 := by
  unfold importContactsRec
  by_cases h : nameOf r == ""
  · simp [h]
  · by_cases hc : companyNameOf r == ""
    · simp [h, hc]
    · cases hfind : db.companies.find? (fun c => c.name == companyNameOf r) <;>
        simp [h, hc, hfind]

/-- Folding a per-record step whose inserted-row count matches its reported
count preserves that relation over a whole CSV file. -/
theorem csv_fold_invariant (step : AppDb → CsvRecord → AppDb × Nat)
    (len : AppDb → Nat)
    (hstep : ∀ db r, len (step db r).1 = len db + (step db r).2) :
    ∀ (records : List CsvRecord) (db : AppDb) (n : Nat),
      len (records.foldl
          (fun acc r => ((step acc.1 r).1, acc.2 + (step acc.1 r).2)) (db, n)).1 + n =
        (records.foldl
          (fun acc r => ((step acc.1 r).1, acc.2 + (step acc.1 r).2)) (db, n)).2 +
          len db := by
  intro records
  induction records with
  | nil => intro db n; simp; omega
  | cons r rs ih =>
    intro db n
    simp only [List.foldl_cons]
    have h1 := hstep db r
    have h2 := ih (step db r).1 (n + (step db r).2)
    omega

/-- C10: a record with an empty (stripped) name inserts nothing for either
kind; the reported `added` count equals the number of rows inserted for the
kind being imported; a contact with an unmatched non-empty company name
creates exactly one name-only company and links the contact to it, while a
matched company is reused without duplication. -/
theorem csv_import_behavior :
    (∀ (db : AppDb) (r : CsvRecord), nameOf r = "" →
      importCompaniesRec db r = (db, 0) ∧ importContactsRec db r = (db, 0)) ∧
    (∀ (records : List CsvRecord) (db : AppDb),
      (ask_import_csv .companies records db).1.companies.length =
        db.companies.length + (ask_import_csv .companies records db).2) ∧
    (∀ (records : List CsvRecord) (db : AppDb),
      (ask_import_csv .contacts records db).1.contacts.length =
        db.contacts.length + (ask_import_csv .contacts records db).2) ∧
    (∀ (db : AppDb) (r : CsvRecord), nameOf r ≠ "" → companyNameOf r ≠ "" →
      (∀ c, db.companies.find? (fun x => x.name == companyNameOf r) = some c →
        (importContactsRec db r).1.companies = db.companies ∧
        (importContactsRec db r).1.contacts.getLast?.map (fun ct => ct.company_id) =
          some (some c.id)) ∧
      (db.companies.find? (fun x => x.name == companyNameOf r) = none →
        (importContactsRec db r).1.companies =
          db.companies ++ [⟨db.nextCompanyId, companyNameOf r, "", "", "", ""⟩] ∧
        (importContactsRec db r).1.contacts.getLast?.map (fun ct => ct.company_id) =
          some (some db.nextCompanyId))) := by
  refine ⟨?_, ?_, ?_, ?_⟩
  · intro db r h
    constructor
    · unfold importCompaniesRec; simp [h]
    · unfold importContactsRec; simp [h]
  · intro records db
    have h := csv_fold_invariant importCompaniesRec (fun d => d.companies.length)
      importCompaniesRec_length records db 0
    simp only [ask_import_csv, csvStep]
    simp only at h
    omega
  · intro records db
    have h := csv_fold_invariant importContactsRec (fun d => d.contacts.length)
      importContactsRec_length records db 0
    simp only [ask_import_csv, csvStep]
    simp only at h
    omega
  · intro db r hn hc
    have hn' : (nameOf r == "") = false := by simp [hn]
    have hc' : (companyNameOf r == "") = false := by simp [hc]
    constructor
    · intro c hfind
      unfold importContactsRec
      simp [hn', hc', hfind, List.getLast?_concat]
    · intro hfind
      unfold importContactsRec
      simp [hn', hc', hfind, List.getLast?_concat]

/-- Witness for C10 at concrete inputs: an empty-name record is skipped, a
contact with a matching company reuses it, and a contact with an unknown
company creates one. -/
theorem csv_import_behavior_witness :
    (importCompaniesRec ⟨[⟨1, "Acme", "", "", "", ""⟩], [], [], [], 2, 1⟩
        [("name", "  ")] = (⟨[⟨1, "Acme", "", "", "", ""⟩], [], [], [], 2, 1⟩, 0)) ∧
    ((importContactsRec ⟨[⟨1, "Acme", "", "", "", ""⟩], [], [], [], 2, 1⟩
        [("name", "Bob"), ("company", "Acme")]).1.companies =
      [⟨1, "Acme", "", "", "", ""⟩]) ∧
    ((importContactsRec ⟨[⟨1, "Acme", "", "", "", ""⟩], [], [], [], 2, 1⟩
        [("name", "Bob"), ("company", "Novel")]).1.companies =
      [⟨1, "Acme", "", "", "", ""⟩, ⟨2, "Novel", "", "", "", ""⟩]) := by
  refine ⟨?_, ?_, ?_⟩
  · exact (csv_import_behavior.1 ⟨[⟨1, "Acme", "", "", "", ""⟩], [], [], [], 2, 1⟩
      [("name", "  ")] (by decide)).1
  · exact ((csv_import_behavior.2.2.2 ⟨[⟨1, "Acme", "", "", "", ""⟩], [], [], [], 2, 1⟩
      [("name", "Bob"), ("company", "Acme")] (by decide) (by decide)).1
      ⟨1, "Acme", "", "", "", ""⟩ (by decide)).1
  · exact ((csv_import_behavior.2.2.2 ⟨[⟨1, "Acme", "", "", "", ""⟩], [], [], [], 2, 1⟩
      [("name", "Bob"), ("company", "Novel")] (by decide) (by decide)).2 (by decide)).1

/-! ## Editing-surface mutation paths
(src/GateMiniCRM.py, `CompaniesTab.on_save` lines 406-428 and
`DealsTab.on_delete` lines 715-723)

Both handlers execute SQL with `cur.execute` and `self.conn.commit()`
directly.  Nothing in src/ appends to a change log or raises a
`CaptureError`; the `changeLog` component of `AppDb` is there to observe
exactly that. -/

/-- The form fields of the Companies tab. -/
structure CompaniesForm where
  var_id : String
  var_name : String
  var_phone : String
  var_email : String
  var_website : String
  address_text : String
deriving DecidableEq

/-- Whether `on_save` committed a mutation or bailed out with the
"name is required" warning. -/
inductive SaveOutcome
  | saved
  | warned
deriving DecidableEq

/-- `CompaniesTab.on_save`: require a non-empty stripped name; with a
non-empty `var_id` run `UPDATE companies SET ... WHERE id=?`, otherwise
`INSERT INTO companies(...)` (taking `cur.lastrowid`); then
`self.conn.commit()`. -/
def companies_on_save (f : CompaniesForm) (db : AppDb) : AppDb × SaveOutcome :=
  let name := pyStrip f.var_name
  if name == "" then (db, .warned)
  else
    let phone := pyStrip f.var_phone
    let email := pyStrip f.var_email
    let website := pyStrip f.var_website
    let address := pyStrip f.address_text
    if f.var_id == "" then
      ({ db with
          companies := db.companies ++
            [⟨db.nextCompanyId, name, phone, email, website, address⟩],
          nextCompanyId := db.nextCompanyId + 1 }, .saved)
    else
      ({ db with
          companies := db.companies.map (fun c =>
            if f.var_id.toNat? == some c.id then
              ⟨c.id, name, phone, email, website, address⟩
            else c) }, .saved)

/-- `DealsTab.on_delete`: with a selected id and a confirmed dialog, run
`DELETE FROM deals WHERE id=?` and commit; otherwise do nothing. -/
def deals_on_delete (var_id : String) (confirmed : Bool) (db : AppDb) : AppDb :=
  if var_id == "" then db
  else if confirmed then
    { db with deals := db.deals.filter (fun d => !(var_id.toNat? == some d.id)) }
  else db

/-- C1 counterexample: a successful `CompaniesTab.on_save` commits an insert
while the change log stays empty — a committed mutation on a tracked table
with no corresponding Change Record and no `CaptureError`, refuting the
claim as stated. -/
theorem mutation_without_record :
    (companies_on_save ⟨"", "Acme", "555", "a@b", "w", "addr"⟩
        ⟨[], [], [], [], 1, 1⟩).2 = SaveOutcome.saved ∧
    (companies_on_save ⟨"", "Acme", "555", "a@b", "w", "addr"⟩
        ⟨[], [], [], [], 1, 1⟩).1.companies.length = 1 ∧
    (companies_on_save ⟨"", "Acme", "555", "a@b", "w", "addr"⟩
        ⟨[], [], [], [], 1, 1⟩).1.changeLog = [] := by
  refine ⟨?_, ?_, ?_⟩ <;> decide

/-- C1 amended: the editing-surface mutation paths commit directly and never
append a Change Record themselves (and never fail with a `CaptureError`,
which does not exist in src/); any change capture is left to database-level
hooks installed by the optional external `gate_sync` module. -/
theorem mutation_paths_no_capture (f : CompaniesForm) (db : AppDb)
    (var_id : String) (confirmed : Bool) :
    (companies_on_save f db).1.changeLog = db.changeLog ∧
    (deals_on_delete var_id confirmed db).changeLog = db.changeLog := by
  constructor
  · unfold companies_on_save
    by_cases h : pyStrip f.var_name == "" <;>
      by_cases h2 : f.var_id == "" <;> simp [h, h2]
  · unfold deals_on_delete
    by_cases h : var_id == "" <;> by_cases h2 : confirmed <;> simp [h, h2]

/-! ## Sync module availability
(src/GateMiniCRM.py, lines 42-51 `gate_sync` import fallback and lines
1314-1319 `GateMiniCRMApp.create_menu`)

`from gate_sync import (...)` is wrapped in `try/except`; on failure all
four names become `None`, and each Sync menu command guards with
`... if <handler> else None`. -/

/-- The four callables imported from `gate_sync` when the module loads. -/
structure GateSyncFns where
  ensure_change_tracking : AppDb → AppDb
  export_changes_dialog : AppDb → AppDb
  import_pack_dialog : AppDb → AppDb
  init_device_settings_dialog : AppDb → AppDb

/-- Whether a Sync menu command invoked its handler or fell through the
`if <handler> else None` guard. -/
inductive MenuEffect
  | ran
  | noop
deriving DecidableEq

/-- The `Import Sync Pack…` menu command:
`import_pack_dialog(self.conn, self.master) if import_pack_dialog else None`. -/
def syncImportCommand (g : Option GateSyncFns) (db : AppDb) : AppDb × MenuEffect :=
  match g with
  | some fns => (fns.import_pack_dialog db, .ran)
  | none => (db, .noop)

/-- The `Export Sync Pack…` menu command. -/
def syncExportCommand (g : Option GateSyncFns) (db : AppDb) : AppDb × MenuEffect :=
  match g with
  | some fns => (fns.export_changes_dialog db, .ran)
  | none => (db, .noop)

/-- The `Set Device ID / Invoice Prefix` menu command. -/
def syncInitDeviceCommand (g : Option GateSyncFns) (db : AppDb) : AppDb × MenuEffect :=
  match g with
  | some fns => (fns.init_device_settings_dialog db, .ran)
  | none => (db, .noop)

/-- `GateMiniCRMApp.__init__`: connect, then
`if ensure_change_tracking: ensure_change_tracking(self.conn)` — startup
proceeds whether or not the sync module loaded. -/
def appInit (g : Option GateSyncFns) (db : AppDb) : AppDb :=
  match g with
  | some fns => fns.ensure_change_tracking db
  | none => db

/-- C7 counterexample: when the `gate_sync` import fails (as in this
repository, which ships no `gate_sync.py`), the application still starts,
yet every sync operation is a no-op — the operations are not available
"whenever the application starts". -/
theorem sync_unavailable_counterexample :
    appInit none ⟨[], [], [], [], 1, 1⟩ = ⟨[], [], [], [], 1, 1⟩ ∧
    syncImportCommand none ⟨[], [], [], [], 1, 1⟩ =
      (⟨[], [], [], [], 1, 1⟩, MenuEffect.noop) ∧
    syncExportCommand none ⟨[], [], [], [], 1, 1⟩ =
      (⟨[], [], [], [], 1, 1⟩, MenuEffect.noop) ∧
    syncInitDeviceCommand none ⟨[], [], [], [], 1, 1⟩ =
      (⟨[], [], [], [], 1, 1⟩, MenuEffect.noop) := by
  refine ⟨rfl, rfl, rfl, rfl⟩

/-- C7 amended: the sync operations are exposed through the Sync menu only
when the optional `gate_sync` module imports successfully; when it is
missing, the application still starts and each sync command does nothing. -/
theorem sync_availability_conditional (db : AppDb) :
    (appInit none db = db ∧
      syncImportCommand none db = (db, .noop) ∧
      syncExportCommand none db = (db, .noop) ∧
      syncInitDeviceCommand none db = (db, .noop)) ∧
    (∀ fns : GateSyncFns,
      appInit (some fns) db = fns.ensure_change_tracking db ∧
      syncImportCommand (some fns) db = (fns.import_pack_dialog db, .ran) ∧
      syncExportCommand (some fns) db = (fns.export_changes_dialog db, .ran) ∧
      syncInitDeviceCommand (some fns) db = (fns.init_device_settings_dialog db, .ran)) := by
  exact ⟨⟨rfl, rfl, rfl, rfl⟩, fun fns => ⟨rfl, rfl, rfl, rfl⟩⟩

/-! ## Pack importer / merge engine

The reconciliation engine lives in `gate_sync.py`, which is not under src/;
every definition in this section is modelled from the spec (§3, §4.4, §6,
§7) and says so in its doc comment.  The foreign-key dependencies, however,
are transcribed from the `FOREIGN KEY` clauses of `init_db` in
src/GateMiniCRM.py. -/

/-- Modelled from the spec: §4.4.4 resolves conflicts per field, so each
stored field carries the `(timestamp, device_id)` of its last writer. -/
structure Cell where
  value : String
  ts : Nat
  dev : DeviceId
deriving DecidableEq

/-- Modelled from the spec: a local row of a tracked table, addressed by
`(table, row_key)` with per-field last-writer metadata. -/
structure SyncRow where
  table : String
  key : RowKey
  cells : List (FieldName × Cell)
deriving DecidableEq

/-- Modelled from the spec: the local store seen by the merge engine — the
tracked rows plus the per-peer watermark mapping (§3, §6). -/
structure LState where
  rows : List SyncRow
  watermarks : List (DeviceId × Nat)
deriving DecidableEq

/-- Modelled from the spec: §6 pack header
`{device_id, from_sequence, to_sequence, record_count}`. -/
structure PackHeader where
  device_id : DeviceId
  from_sequence : Nat
  to_sequence : Nat
  record_count : Nat
deriving DecidableEq

/-- Modelled from the spec: a pack is a header plus an ordered sequence of
Change Records (§3, §6). -/
structure Pack where
  header : PackHeader
  records : List ChangeRecord
deriving DecidableEq

/-- Modelled from the spec: the last-writer-wins comparison key —
`(timestamp, device_id)`, higher timestamp wins, ties broken by
lexicographically greater `device_id` (§4.4.4). -/
def LwwLt (a b : Nat × DeviceId) : Prop :=
  a.1 < b.1 ∨ (a.1 = b.1 ∧ a.2 < b.2)

instance (a b : Nat × DeviceId) : Decidable (LwwLt a b) := by
  unfold LwwLt
  exact inferInstance

theorem LwwLt_trans {a b c : Nat × DeviceId} (h1 : LwwLt a b) (h2 : LwwLt b c) :
    LwwLt a c := by
  rcases h1 with h1 | ⟨h1e, h1d⟩ <;> rcases h2 with h2 | ⟨h2e, h2d⟩
  · exact Or.inl (Nat.lt_trans h1 h2)
  · exact Or.inl (h2e ▸ h1)
  · exact Or.inl (h1e ▸ h2)
  · exact Or.inr ⟨h1e.trans h2e, lt_trans h1d h2d⟩

theorem LwwLt_asymm {a b : Nat × DeviceId} (h : LwwLt a b) : ¬LwwLt b a := by
  intro h2
  rcases h with h | ⟨he, hd⟩ <;> rcases h2 with h2 | ⟨h2e, h2d⟩
  · omega
  · omega
  · omega
  · exact absurd h2d (lt_asymm hd)

/-- Row lookup predicate: the row for `(table, row_key)`. -/
def rowMatches (tbl : String) (k : RowKey) (row : SyncRow) : Bool :=
  row.table == tbl && row.key == k

/-- Modelled from the spec: find the local copy of the row a record
addresses. -/
def findRow (rows : List SyncRow) (tbl : String) (k : RowKey) : Option SyncRow :=
  rows.find? (rowMatches tbl k)

/-- Modelled from the spec: one incoming field write — overwrite exactly
when the incoming `(timestamp, device_id)` is greater (§4.4.4). -/
def applyFieldCell (c : Cell) (v : String) (ts : Nat) (dev : DeviceId) : Cell :=
  if LwwLt (c.ts, c.dev) (ts, dev) then ⟨v, ts, dev⟩ else c

/-- Modelled from the spec: write one field of a row under the conflict
rule, creating the field when it is not present. -/
def setCells (cells : List (FieldName × Cell)) (f : FieldName) (v : String)
    (ts : Nat) (dev : DeviceId) : List (FieldName × Cell) :=
  if cells.any (fun p => p.1 == f) then
    cells.map (fun p => if p.1 == f then (p.1, applyFieldCell p.2 v ts dev) else p)
  else cells ++ [(f, ⟨v, ts, dev⟩)]

/-- Modelled from the spec: apply all of a record's `changed_fields` to a
row's cells. -/
def mergeFields (cells : List (FieldName × Cell)) (fs : List (FieldName × String))
    (ts : Nat) (dev : DeviceId) : List (FieldName × Cell) :=
  fs.foldl (fun acc fv => setCells acc fv.1 fv.2 ts dev) cells

/-- The foreign-key dependencies `(child table, referencing column, parent
table)`, transcribed from `init_db` in src/GateMiniCRM.py. -/
def fkSpec : List (String × FieldName × String) :=
  [("contacts", "company_id", "companies"),
   ("deals", "company_id", "companies"),
   ("deals", "contact_id", "contacts"),
   ("activities", "deal_id", "deals"),
   ("activities", "company_id", "companies"),
   ("time_entries", "deal_id", "deals"),
   ("invoices", "deal_id", "deals"),
   ("invoice_items", "invoice_id", "invoices")]

/-- Modelled from the spec: §7 `ForeignKeyViolation` — a record whose
referenced parent row is absent at apply time. -/
def fkMissing (rows : List SyncRow) (r : ChangeRecord) : Bool :=
  fkSpec.any (fun d =>
    d.1 == r.table && r.changed_fields.any (fun fv =>
      fv.1 == d.2.1 && !(fv.2 == "") && (findRow rows d.2.2 fv.2).isNone))

/-- How the importer disposed of one record: applied, dropped as a conflict
(update on a locally absent row), or skipped over a missing dependency. -/
inductive ApplyOutcome
  | applied
  | conflictSkipped
  | fkSkipped
deriving DecidableEq

/-- Modelled from the spec: merge a record's fields into the addressed local
row. -/
def updateRow (rows : List SyncRow) (r : ChangeRecord) : List SyncRow :=
  rows.map (fun row =>
    if rowMatches r.table r.row_key row then
      { row with cells := mergeFields row.cells r.changed_fields r.timestamp r.device_id }
    else row)

/-- Modelled from the spec: apply one deduplicated record (§4.4.3): delete
always wins and removes the row; an update on an absent row is dropped as a
conflict; an insert checks dependencies, merges into an existing row as a
conflict, and otherwise creates the row. -/
def applyRecord (rows : List SyncRow) (r : ChangeRecord) :
    List SyncRow × ApplyOutcome :=
  match r.operation with
  | .del => (rows.filter (fun row => !(rowMatches r.table r.row_key row)), .applied)
  | .upd =>
    match findRow rows r.table r.row_key with
    | none => (rows, .conflictSkipped)
    | some _ => (updateRow rows r, .applied)
  | .ins =>
    if fkMissing rows r then (rows, .fkSkipped)
    else
      match findRow rows r.table r.row_key with
      | some _ => (updateRow rows r, .applied)
      | none =>
        (rows ++ [⟨r.table, r.row_key,
          r.changed_fields.map (fun fv => (fv.1, ⟨fv.2, r.timestamp, r.device_id⟩))⟩],
         .applied)

/-- Accumulator of the apply loop: the evolving rows plus the counts and
reports that become the `MergeReport`. -/
structure ApplyAcc where
  rows : List SyncRow
  applied : Nat
  conflicts : Nat
  fkReports : List RowKey
deriving DecidableEq

/-- Modelled from the spec: apply the deduplicated records in sequence
order, counting applied records and reporting the skipped ones (§4.4.3,
§7). -/
def applyAll (acc : ApplyAcc) : List ChangeRecord → ApplyAcc
  | [] => acc
  | r :: rs =>
    let step := applyRecord acc.rows r
    let acc2 :=
      match step.2 with
      | .applied => { acc with rows := step.1, applied := acc.applied + 1 }
      | .conflictSkipped => { acc with rows := step.1, conflicts := acc.conflicts + 1 }
      | .fkSkipped => { acc with rows := step.1, fkReports := acc.fkReports ++ [r.row_key] }
    applyAll acc2 rs

/-- Modelled from the spec: the stored watermark for a peer device, `0`
before the first import from it (§3). -/
def getWm (l : List (DeviceId × Nat)) (d : DeviceId) : Nat :=
  match l.find? (fun p => p.1 == d) with
  | some p => p.2
  | none => 0

/-- Modelled from the spec: store a peer's watermark, creating the entry on
first import (§3, §6). -/
def setWm (l : List (DeviceId × Nat)) (d : DeviceId) (v : Nat) :
    List (DeviceId × Nat) :=
  if l.any (fun p => p.1 == d) then
    l.map (fun p => if p.1 == d then (p.1, v) else p)
  else l ++ [(d, v)]

/-- Modelled from the spec: §4.4.1/§6 structural validation — the record
sequences must be exactly the ascending gap-free range the header declares
(which also forces the line count to equal `record_count`), and every record
must come from the exporting device. -/
def validPack (p : Pack) : Bool :=
  (p.records.map (fun r => r.sequence) ==
      List.range' p.header.from_sequence p.header.record_count) &&
    (p.header.to_sequence + 1 == p.header.from_sequence + p.header.record_count) &&
    p.records.all (fun r => r.device_id == p.header.device_id)

/-- Modelled from the spec: the `MergeReport` of §4.4 — applied count,
skipped-conflict count, reported foreign-key skips, and the new
watermark. -/
structure MergeReport where
  applied : Nat
  conflicts : Nat
  fkReports : List RowKey
  watermark : Nat
deriving DecidableEq

/-- Modelled from the spec: `import(pack)` (§4.4) — validate the header
(rejecting the whole pack as malformed otherwise), drop records at or below
the peer's watermark, apply the rest in order, and advance the watermark to
the declared `to_sequence` without ever regressing it. -/
def importPack (s : LState) (p : Pack) : LState × Option MergeReport :=
  if validPack p then
    let fresh := p.records.filter
      (fun r => decide (getWm s.watermarks r.device_id < r.sequence))
    let acc := applyAll ⟨s.rows, 0, 0, []⟩ fresh
    let newWm := max (getWm s.watermarks p.header.device_id) p.header.to_sequence
    ({ rows := acc.rows,
       watermarks := setWm s.watermarks p.header.device_id newWm },
     some ⟨acc.applied, acc.conflicts, acc.fkReports, newWm⟩)
  else (s, none)

/-- Modelled from the spec: read one field of one row, as the editing
surface would after a merge. -/
def getField (rows : List SyncRow) (tbl : String) (k : RowKey) (f : FieldName) :
    Option String :=
  match findRow rows tbl k with
  | none => none
  | some row =>
    match row.cells.find? (fun p => p.1 == f) with
    | none => none
    | some p => some p.2.value

/-! ### Helper lemmas about lookup and update -/

/-- `find?` commutes with a map whose function preserves the predicate. -/
theorem find?_map_of_pres {α : Type} (pr : α → Bool) (g : α → α)
    (hg : ∀ a, pr (g a) = pr a) (l : List α) :
    (l.map g).find? pr = (l.find? pr).map g := by
  induction l with
  | nil => rfl
  | cons a t ih =>
    simp only [List.map_cons]
    by_cases h : pr a = true
    · rw [List.find?_cons_of_pos _ ((hg a).trans h), List.find?_cons_of_pos _ h]
      rfl
    · have h2 : ¬pr (g a) = true := by rw [hg a]; exact h
      rw [List.find?_cons_of_neg _ h2, List.find?_cons_of_neg _ h, ih]

/-- Nothing satisfying the predicate survives filtering by its negation. -/
theorem find?_filter_not {α : Type} (pr : α → Bool) (l : List α) :
    (l.filter (fun a => !(pr a))).find? pr = none := by
  rw [List.find?_eq_none]
  intro x hx
  have h := (List.mem_filter.mp hx).2
  simp only [Bool.not_eq_true'] at h
  simp [h]

/-- Reading back a just-written watermark. -/
theorem getWm_setWm (l : List (DeviceId × Nat)) (d : DeviceId) (v : Nat) :
    getWm (setWm l d v) d = v := by
  unfold getWm setWm
  by_cases h : l.any (fun p => p.1 == d) = true
  · rw [if_pos h,
      find?_map_of_pres (fun p => p.1 == d) (fun p => if p.1 == d then (p.1, v) else p)
        (fun a => by by_cases ha : (a.1 == d) = true <;> simp [ha]) l]
    obtain ⟨a, hmem, ha⟩ := List.any_eq_true.mp h
    cases hf : l.find? (fun p => p.1 == d) with
    | none =>
      rw [List.find?_eq_none] at hf
      exact absurd ha (hf a hmem)
    | some p0 =>
      have hp0 := List.find?_some hf
      simp only at hp0
      have hp0e : p0.1 = d := by simpa using hp0
      simp [hp0e]
  · rw [if_neg h, List.find?_append]
    have hnone : l.find? (fun p => p.1 == d) = none := by
      rw [List.find?_eq_none]
      intro x hx hpx
      exact h (List.any_eq_true.mpr ⟨x, hx, hpx⟩)
    rw [hnone]
    simp

/-- Writing one device's watermark leaves every other device's watermark
unchanged. -/
theorem getWm_setWm_ne (l : List (DeviceId × Nat)) (d d' : DeviceId) (v : Nat)
    (hne : d' ≠ d) :
    getWm (setWm l d v) d' = getWm l d' := by
  unfold getWm setWm
  by_cases h : l.any (fun p => p.1 == d) = true
  · rw [if_pos h,
      find?_map_of_pres (fun p => p.1 == d') (fun p => if p.1 == d then (p.1, v) else p)
        (fun a => by by_cases ha : (a.1 == d) = true <;> simp [ha]) l]
    cases hf : l.find? (fun p => p.1 == d') with
    | none => rfl
    | some p0 =>
      have hp0 := List.find?_some hf
      simp only at hp0
      have hp0' : p0.1 = d' := by simpa using hp0
      have hp0ne : p0.1 ≠ d := by
        rw [hp0']
        exact hne
      simp [hp0ne]
  · rw [if_neg h, List.find?_append]
    have hlast : [(d, v)].find? (fun p => p.1 == d') = none := by
      have hfalse : ((d, v).1 == d') = false := by
        simp only [beq_eq_false_iff_ne, ne_eq]
        exact fun hc => hne hc.symm
      simp [List.find?, hfalse]
    rw [hlast]
    cases hf : l.find? (fun p => p.1 == d') <;> rfl

/-- Re-writing the same watermark value is a no-op on the stored mapping. -/
theorem setWm_setWm (l : List (DeviceId × Nat)) (d : DeviceId) (v : Nat) :
    setWm (setWm l d v) d v = setWm l d v := by
  by_cases h : l.any (fun p => p.1 == d) = true
  · have hl' : setWm l d v = l.map (fun p => if p.1 == d then (p.1, v) else p) := by
      unfold setWm
      rw [if_pos h]
    obtain ⟨a, hmem, ha⟩ := List.any_eq_true.mp h
    have hany : (l.map (fun p => if p.1 == d then (p.1, v) else p)).any
        (fun p => p.1 == d) = true := by
      refine List.any_eq_true.mpr ⟨(a.1, v), ?_, ha⟩
      have hga : (fun p => if p.1 == d then (p.1, v) else p) a = (a.1, v) := by
        simp [ha]
      rw [← hga]
      exact List.mem_map_of_mem _ hmem
    rw [hl']
    unfold setWm
    rw [if_pos hany, List.map_map]
    refine List.map_congr_left ?_
    intro b _
    by_cases hb : (b.1 == d) = true <;> simp [hb, Function.comp]
  · have hl' : setWm l d v = l ++ [(d, v)] := by
      unfold setWm
      rw [if_neg h]
    have hany : (l ++ [(d, v)]).any (fun p => p.1 == d) = true :=
      List.any_eq_true.mpr ⟨(d, v), by simp, by simp⟩
    rw [hl']
    unfold setWm
    rw [if_pos hany, List.map_append]
    have h1 : l.map (fun p => if p.1 == d then (p.1, v) else p) = l := by
      have h2 : ∀ b ∈ l, (fun p => if p.1 == d then (p.1, v) else p) b = id b := by
        intro b hmem
        have hfalse : (b.1 == d) = false := by
          cases hb : (b.1 == d) with
          | false => rfl
          | true => exact absurd (List.any_eq_true.mpr ⟨b, hmem, hb⟩) h
        simp [hfalse]
      rw [List.map_congr_left h2, List.map_id]
    rw [h1]
    simp

/-- A valid pack's records all come from the exporting device with
sequences bounded by the declared `to_sequence`. -/
theorem validPack_record_bounds (p : Pack) (hv : validPack p = true) :
    ∀ r ∈ p.records,
      r.device_id = p.header.device_id ∧ r.sequence ≤ p.header.to_sequence := by
  unfold validPack at hv
  simp only [Bool.and_eq_true, beq_iff_eq, List.all_eq_true] at hv
  obtain ⟨⟨hmap, hrange⟩, hall⟩ := hv
  intro r hr
  refine ⟨by simpa using hall r hr, ?_⟩
  have hm : r.sequence ∈ p.records.map (fun r => r.sequence) :=
    List.mem_map_of_mem _ hr
  rw [hmap, List.mem_range'] at hm
  obtain ⟨i, hi, heq⟩ := hm
  omega

/-- Whatever the outcome, applying a single record leaves the accumulated
rows equal to `applyRecord`'s rows. -/
theorem applyAll_single_rows (acc : ApplyAcc) (r : ChangeRecord) :
    (applyAll acc [r]).rows = (applyRecord acc.rows r).1 := by
  unfold applyAll
  cases h : (applyRecord acc.rows r).2 <;> simp [h, applyAll]

/-- `import(pack)` on a structurally valid pack, unfolded. -/
theorem importPack_valid (s : LState) (p : Pack) (hv : validPack p = true) :
    importPack s p =
      ({ rows := (applyAll ⟨s.rows, 0, 0, []⟩ (p.records.filter
            (fun r => decide (getWm s.watermarks r.device_id < r.sequence)))).rows,
         watermarks := setWm s.watermarks p.header.device_id
           (max (getWm s.watermarks p.header.device_id) p.header.to_sequence) },
       some ⟨(applyAll ⟨s.rows, 0, 0, []⟩ (p.records.filter
            (fun r => decide (getWm s.watermarks r.device_id < r.sequence)))).applied,
         (applyAll ⟨s.rows, 0, 0, []⟩ (p.records.filter
            (fun r => decide (getWm s.watermarks r.device_id < r.sequence)))).conflicts,
         (applyAll ⟨s.rows, 0, 0, []⟩ (p.records.filter
            (fun r => decide (getWm s.watermarks r.device_id < r.sequence)))).fkReports,
         max (getWm s.watermarks p.header.device_id) p.header.to_sequence⟩) := by
  unfold importPack
  rw [if_pos hv]

/-- `import(pack)` on a malformed pack, unfolded. -/
theorem importPack_invalid (s : LState) (p : Pack) (hv : validPack p = false) :
    importPack s p = (s, none) := by
  unfold importPack
  rw [if_neg (by rw [hv]; exact Bool.false_ne_true)]

/-- C2: importing the same pack twice leaves the state of the first import
unchanged and reports zero applied records on the second attempt. -/
theorem import_idempotent (s : LState) (p : Pack) (s' : LState)
    (rep : MergeReport) (h : importPack s p = (s', some rep)) :
    ∃ rep2, importPack s' p = (s', some rep2) ∧ rep2.applied = 0 := by
  by_cases hv : validPack p = true
  · rw [importPack_valid s p hv] at h
    injection h with h1 h2
    subst h1
    have hbounds := validPack_record_bounds p hv
    have hw : getWm (setWm s.watermarks p.header.device_id
        (max (getWm s.watermarks p.header.device_id) p.header.to_sequence))
          p.header.device_id =
        max (getWm s.watermarks p.header.device_id) p.header.to_sequence :=
      getWm_setWm _ _ _
    rw [importPack_valid _ p hv]
    dsimp only
    have hfilter : p.records.filter (fun r =>
        decide (getWm (setWm s.watermarks p.header.device_id
          (max (getWm s.watermarks p.header.device_id) p.header.to_sequence))
            r.device_id < r.sequence)) = [] := by
      rw [List.filter_eq_nil_iff]
      intro r hr
      obtain ⟨hdev, hseq⟩ := hbounds r hr
      rw [hdev, hw]
      simp only [decide_eq_true_eq]
      have := Nat.le_max_right (getWm s.watermarks p.header.device_id)
        p.header.to_sequence
      omega
    rw [hfilter, hw]
    have hmax : max (max (getWm s.watermarks p.header.device_id)
        p.header.to_sequence) p.header.to_sequence =
        max (getWm s.watermarks p.header.device_id) p.header.to_sequence :=
      Nat.max_eq_left (Nat.le_max_right _ _)
    rw [hmax, setWm_setWm]
    exact ⟨⟨0, 0, [],
      max (getWm s.watermarks p.header.device_id) p.header.to_sequence⟩,
      rfl, rfl⟩
  · rw [importPack_invalid s p (by revert hv; cases validPack p <;> simp)] at h
    exact absurd (congrArg Prod.snd h) (by simp)

/-- Witness for C2: a one-record pack from device `"A"` imported into the
state its own first import produced applies nothing further. -/
theorem import_idempotent_witness :
    ∃ rep2,
      importPack
          ⟨[⟨"companies", "r1", [("name", ⟨"Acme", 5, "A"⟩)]⟩], [("A", 1)]⟩
          ⟨⟨"A", 1, 1, 1⟩,
            [⟨"A", 1, "companies", "r1", .ins, [("name", "Acme")], 5, "A", 1⟩]⟩ =
        (⟨[⟨"companies", "r1", [("name", ⟨"Acme", 5, "A"⟩)]⟩], [("A", 1)]⟩,
          some rep2) ∧
      rep2.applied = 0 :=
  import_idempotent ⟨[], []⟩
    ⟨⟨"A", 1, 1, 1⟩,
      [⟨"A", 1, "companies", "r1", .ins, [("name", "Acme")], 5, "A", 1⟩]⟩
    ⟨[⟨"companies", "r1", [("name", ⟨"Acme", 5, "A"⟩)]⟩], [("A", 1)]⟩
    ⟨1, 0, [], 1⟩ (by decide)

/-- Rows after importing a valid single-record pack whose record clears the
watermark: exactly one `applyRecord`. -/
theorem importPack_single_rows (s : LState) (d : DeviceId) (sq : Nat)
    (r : ChangeRecord) (hd : r.device_id = d) (hs : r.sequence = sq)
    (hwm : getWm s.watermarks d < sq) :
    (importPack s ⟨⟨d, sq, sq, 1⟩, [r]⟩).1.rows = (applyRecord s.rows r).1 := by
  have hv : validPack ⟨⟨d, sq, sq, 1⟩, [r]⟩ = true := by
    unfold validPack
    simp [hs, hd]
  rw [importPack_valid _ _ hv]
  dsimp only
  have hfil : [r].filter
      (fun x => decide (getWm s.watermarks x.device_id < x.sequence)) = [r] := by
    simp [hd, hs, hwm]
  rw [hfil]
  exact applyAll_single_rows ⟨s.rows, 0, 0, []⟩ r

/-- Watermarks after importing a valid single-record pack. -/
theorem importPack_single_wms (s : LState) (d : DeviceId) (sq : Nat)
    (r : ChangeRecord) (hd : r.device_id = d) (hs : r.sequence = sq) :
    (importPack s ⟨⟨d, sq, sq, 1⟩, [r]⟩).1.watermarks =
      setWm s.watermarks d (max (getWm s.watermarks d) sq) := by
  have hv : validPack ⟨⟨d, sq, sq, 1⟩, [r]⟩ = true := by
    unfold validPack
    simp [hs, hd]
  rw [importPack_valid _ _ hv]

/-- C4: an imported delete removes the local row even when the local copy
carries a later-stamped edit, and an imported update for a row already
deleted locally is dropped — so after the mutual exchange of a delete from
device A and an earlier-stamped update from device B, the row is absent on
both devices. -/
theorem delete_dominance
    (tbl : String) (k : RowKey) (f : FieldName) (v : String)
    (dA dB : DeviceId) (seqA seqB tA tB : Nat) (sA sB : LState)
    (hAbsent : findRow sA.rows tbl k = none)
    (hEarlier : tB < tA)
    (hWmA : getWm sA.watermarks dB < seqB)
    (hWmB : getWm sB.watermarks dA < seqA) :
    findRow (importPack sA ⟨⟨dB, seqB, seqB, 1⟩,
        [⟨dB, seqB, tbl, k, .upd, [(f, v)], tB, dB, seqB⟩]⟩).1.rows tbl k = none ∧
    findRow (importPack sB ⟨⟨dA, seqA, seqA, 1⟩,
        [⟨dA, seqA, tbl, k, .del, [], tA, dA, seqA⟩]⟩).1.rows tbl k = none := by
  constructor
  · rw [importPack_single_rows sA dB seqB _ rfl rfl hWmA]
    unfold applyRecord
    dsimp only
    rw [hAbsent]
    exact hAbsent
  · rw [importPack_single_rows sB dA seqA _ rfl rfl hWmB]
    unfold applyRecord
    dsimp only
    exact find?_filter_not (rowMatches tbl k) sB.rows

/-- Witness for C4: device B's state holds the contact row with an
earlier-stamped phone edit; device A's state has it deleted; after
exchanging the single-record packs the row is absent on both sides. -/
theorem delete_dominance_witness :
    findRow (importPack ⟨[], []⟩ ⟨⟨"B", 1, 1, 1⟩,
        [⟨"B", 1, "contacts", "r1", .upd, [("phone", "555")], 5, "B", 1⟩]⟩).1.rows
      "contacts" "r1" = none ∧
    findRow (importPack ⟨[⟨"contacts", "r1", [("phone", ⟨"000", 1, "B"⟩)]⟩], []⟩
        ⟨⟨"A", 1, 1, 1⟩,
          [⟨"A", 1, "contacts", "r1", .del, [], 10, "A", 1⟩]⟩).1.rows
      "contacts" "r1" = none :=
  delete_dominance "contacts" "r1" "phone" "555" "A" "B" 1 1 10 5
    ⟨[], []⟩ ⟨[⟨"contacts", "r1", [("phone", ⟨"000", 1, "B"⟩)]⟩], []⟩
    (by decide) (by decide) (by decide) (by decide)

/-- Importing a valid single-record field update into a state where the row
and the field both exist: the row survives with exactly that field rewritten
through the conflict rule, and the peer's watermark advances. -/
theorem upd_import_state (s : LState) (tbl k f v : String) (d : DeviceId)
    (sq ts : Nat) (row0 : SyncRow) (c0 : Cell)
    (hrow : findRow s.rows tbl k = some row0)
    (hcell : row0.cells.find? (fun p => p.1 == f) = some (f, c0))
    (hwm : getWm s.watermarks d < sq) :
    findRow (importPack s ⟨⟨d, sq, sq, 1⟩,
        [⟨d, sq, tbl, k, .upd, [(f, v)], ts, d, sq⟩]⟩).1.rows tbl k =
      some { row0 with cells := setCells row0.cells f v ts d } ∧
    (setCells row0.cells f v ts d).find? (fun p => p.1 == f) =
      some (f, applyFieldCell c0 v ts d) ∧
    (importPack s ⟨⟨d, sq, sq, 1⟩,
        [⟨d, sq, tbl, k, .upd, [(f, v)], ts, d, sq⟩]⟩).1.watermarks =
      setWm s.watermarks d (max (getWm s.watermarks d) sq) := by
  refine ⟨?_, ?_, importPack_single_wms s d sq _ rfl rfl⟩
  · rw [importPack_single_rows s d sq _ rfl rfl hwm]
    unfold applyRecord
    dsimp only
    rw [hrow]
    unfold updateRow findRow
    dsimp only
    rw [find?_map_of_pres (rowMatches tbl k)
      (fun row => if rowMatches tbl k row then
        { row with cells := mergeFields row.cells [(f, v)] ts d } else row)
      (fun a => by
        dsimp only
        by_cases hm : rowMatches tbl k a = true
        · rw [if_pos hm]
          rfl
        · rw [if_neg hm]) s.rows]
    rw [show s.rows.find? (rowMatches tbl k) = some row0 from hrow]
    have hm : rowMatches tbl k row0 = true := List.find?_some hrow
    simp [hm, mergeFields]
  · unfold setCells
    have hany : row0.cells.any (fun p => p.1 == f) = true :=
      List.any_eq_true.mpr ⟨(f, c0), List.mem_of_find?_eq_some hcell, by simp⟩
    rw [if_pos hany,
      find?_map_of_pres (fun p => p.1 == f)
        (fun p => if p.1 == f then (p.1, applyFieldCell p.2 v ts d) else p)
        (fun a => by by_cases ha : (a.1 == f) = true <;> simp [ha]) row0.cells,
      hcell]
    simp

/-- C5: two updates to the same field of the same row whose
`(timestamp, device_id)` keys are ordered — strictly later timestamp, or
equal timestamps with lexicographically greater device id — merge to the
greater writer's value in either import order, so both peers converge to the
identical result. -/
theorem lww_convergence
    (tbl k f v1 v2 : String) (dX dY : DeviceId) (sqX sqY t1 t2 : Nat)
    (s0 : LState) (row0 : SyncRow) (c0 : Cell)
    (hrow : findRow s0.rows tbl k = some row0)
    (hcell : row0.cells.find? (fun p => p.1 == f) = some (f, c0))
    (hbase : LwwLt (c0.ts, c0.dev) (t1, dX))
    (hwin : LwwLt (t1, dX) (t2, dY))
    (hdev : dX ≠ dY)
    (hWmX : getWm s0.watermarks dX < sqX)
    (hWmY : getWm s0.watermarks dY < sqY) :
    getField (importPack (importPack s0 ⟨⟨dX, sqX, sqX, 1⟩,
          [⟨dX, sqX, tbl, k, .upd, [(f, v1)], t1, dX, sqX⟩]⟩).1
        ⟨⟨dY, sqY, sqY, 1⟩,
          [⟨dY, sqY, tbl, k, .upd, [(f, v2)], t2, dY, sqY⟩]⟩).1.rows
      tbl k f = some v2 ∧
    getField (importPack (importPack s0 ⟨⟨dY, sqY, sqY, 1⟩,
          [⟨dY, sqY, tbl, k, .upd, [(f, v2)], t2, dY, sqY⟩]⟩).1
        ⟨⟨dX, sqX, sqX, 1⟩,
          [⟨dX, sqX, tbl, k, .upd, [(f, v1)], t1, dX, sqX⟩]⟩).1.rows
      tbl k f = some v2 := by
  constructor
  · obtain ⟨hrow1, hcell1, hwms1⟩ :=
      upd_import_state s0 tbl k f v1 dX sqX t1 row0 c0 hrow hcell hWmX
    have hc1 : applyFieldCell c0 v1 t1 dX = ⟨v1, t1, dX⟩ := by
      unfold applyFieldCell
      rw [if_pos hbase]
    rw [hc1] at hcell1
    have hwmY1 : getWm (importPack s0 ⟨⟨dX, sqX, sqX, 1⟩,
        [⟨dX, sqX, tbl, k, .upd, [(f, v1)], t1, dX, sqX⟩]⟩).1.watermarks dY < sqY := by
      rw [hwms1, getWm_setWm_ne _ _ _ _ (Ne.symm hdev)]
      exact hWmY
    obtain ⟨hrow2, hcell2, _⟩ :=
      upd_import_state _ tbl k f v2 dY sqY t2 _ ⟨v1, t1, dX⟩ hrow1 hcell1 hwmY1
    have hc2 : applyFieldCell ⟨v1, t1, dX⟩ v2 t2 dY = ⟨v2, t2, dY⟩ := by
      unfold applyFieldCell
      rw [if_pos hwin]
    rw [hc2] at hcell2
    unfold getField
    rw [hrow2]
    dsimp only
    rw [hcell2]
  · obtain ⟨hrow1, hcell1, hwms1⟩ :=
      upd_import_state s0 tbl k f v2 dY sqY t2 row0 c0 hrow hcell hWmY
    have hc1 : applyFieldCell c0 v2 t2 dY = ⟨v2, t2, dY⟩ := by
      unfold applyFieldCell
      rw [if_pos (LwwLt_trans hbase hwin)]
    rw [hc1] at hcell1
    have hwmX1 : getWm (importPack s0 ⟨⟨dY, sqY, sqY, 1⟩,
        [⟨dY, sqY, tbl, k, .upd, [(f, v2)], t2, dY, sqY⟩]⟩).1.watermarks dX < sqX := by
      rw [hwms1, getWm_setWm_ne _ _ _ _ hdev]
      exact hWmX
    obtain ⟨hrow2, hcell2, _⟩ :=
      upd_import_state _ tbl k f v1 dX sqX t1 _ ⟨v2, t2, dY⟩ hrow1 hcell1 hwmX1
    have hc2 : applyFieldCell ⟨v2, t2, dY⟩ v1 t1 dX = ⟨v2, t2, dY⟩ := by
      unfold applyFieldCell
      rw [if_neg (LwwLt_asymm hwin)]
    rw [hc2] at hcell2
    unfold getField
    rw [hrow2]
    dsimp only
    rw [hcell2]

/-- Witness for C5: the §8 scenario — phone updated to `"555-1000"` at time
10 on device A and to `"555-2000"` at time 20 on device B converges to
`"555-2000"` in both import orders. -/
theorem lww_convergence_witness :
    getField (importPack (importPack
          ⟨[⟨"contacts", "r1", [("phone", ⟨"000", 0, "A"⟩)]⟩], []⟩
          ⟨⟨"A", 1, 1, 1⟩,
            [⟨"A", 1, "contacts", "r1", .upd, [("phone", "555-1000")], 10, "A", 1⟩]⟩).1
        ⟨⟨"B", 1, 1, 1⟩,
          [⟨"B", 1, "contacts", "r1", .upd, [("phone", "555-2000")], 20, "B", 1⟩]⟩).1.rows
      "contacts" "r1" "phone" = some "555-2000" ∧
    getField (importPack (importPack
          ⟨[⟨"contacts", "r1", [("phone", ⟨"000", 0, "A"⟩)]⟩], []⟩
          ⟨⟨"B", 1, 1, 1⟩,
            [⟨"B", 1, "contacts", "r1", .upd, [("phone", "555-2000")], 20, "B", 1⟩]⟩).1
        ⟨⟨"A", 1, 1, 1⟩,
          [⟨"A", 1, "contacts", "r1", .upd, [("phone", "555-1000")], 10, "A", 1⟩]⟩).1.rows
      "contacts" "r1" "phone" = some "555-2000" :=
  lww_convergence "contacts" "r1" "phone" "555-1000" "555-2000" "A" "B" 1 1 10 20
    ⟨[⟨"contacts", "r1", [("phone", ⟨"000", 0, "A"⟩)]⟩], []⟩
    ⟨"contacts", "r1", [("phone", ⟨"000", 0, "A"⟩)]⟩ ⟨"000", 0, "A"⟩
    (by decide) (by decide) (by decide) (by decide) (by decide) (by decide)
    (by decide)

/-- C6: a structurally malformed pack is rejected whole — no report, state
unchanged — while a valid pack always imports to a report; and within the
apply loop a record whose dependency is missing is skipped with its row key
reported while the remaining records are still processed from the same
state. -/
theorem malformed_vs_fk (p : Pack) (s : LState) :
    (validPack p = false → importPack s p = (s, none)) ∧
    (validPack p = true → ∃ st rep, importPack s p = (st, some rep)) ∧
    (∀ (acc : ApplyAcc) (r : ChangeRecord) (rs : List ChangeRecord),
      r.operation = .ins → fkMissing acc.rows r = true →
      applyAll acc (r :: rs) =
        applyAll { acc with fkReports := acc.fkReports ++ [r.row_key] } rs) := by
  refine ⟨importPack_invalid s p, ?_, ?_⟩
  · intro hv
    rw [importPack_valid s p hv]
    exact ⟨_, _, rfl⟩
  · intro acc r rs hop hfk
    have hstep : applyRecord acc.rows r = (acc.rows, .fkSkipped) := by
      unfold applyRecord
      rw [hop]
      dsimp only
      rw [if_pos hfk]
    simp only [applyAll, hstep]

/-- Witness for C6: a pack whose header claims two records but carries one
is rejected with the state unchanged; the same record in a consistent
pack goes through; and an insert referencing a missing company is skipped
and reported while the loop continues. -/
theorem malformed_vs_fk_witness :
    importPack ⟨[], []⟩ ⟨⟨"A", 1, 2, 2⟩,
        [⟨"A", 1, "companies", "r1", .ins, [("name", "Acme")], 5, "A", 1⟩]⟩ =
      (⟨[], []⟩, none) ∧
    (∃ st rep, importPack ⟨[], []⟩ ⟨⟨"A", 1, 1, 1⟩,
        [⟨"A", 1, "companies", "r1", .ins, [("name", "Acme")], 5, "A", 1⟩]⟩ =
      (st, some rep)) ∧
    applyAll ⟨[], 0, 0, []⟩
        [⟨"B", 1, "contacts", "c1", .ins,
          [("company_id", "co9"), ("name", "Bob")], 5, "B", 1⟩] =
      applyAll ⟨[], 0, 0, [] ++ ["c1"]⟩ [] :=
  ⟨(malformed_vs_fk ⟨⟨"A", 1, 2, 2⟩,
      [⟨"A", 1, "companies", "r1", .ins, [("name", "Acme")], 5, "A", 1⟩]⟩
      ⟨[], []⟩).1 (by decide),
   (malformed_vs_fk ⟨⟨"A", 1, 1, 1⟩,
      [⟨"A", 1, "companies", "r1", .ins, [("name", "Acme")], 5, "A", 1⟩]⟩
      ⟨[], []⟩).2.1 (by decide),
   (malformed_vs_fk ⟨⟨"A", 1, 1, 1⟩,
      [⟨"A", 1, "companies", "r1", .ins, [("name", "Acme")], 5, "A", 1⟩]⟩
      ⟨[], []⟩).2.2 ⟨[], 0, 0, []⟩
      ⟨"B", 1, "contacts", "c1", .ins,
        [("company_id", "co9"), ("name", "Bob")], 5, "B", 1⟩ []
      (by decide) (by decide)⟩

/-! ## Row keys (src/GateMiniCRM.py `init_db`; spec §3)

Every tracked table in `init_db` keys its rows by
`id INTEGER PRIMARY KEY AUTOINCREMENT` — a counter scoped to one device.
The spec therefore requires Change Records to carry a separate,
device-independent `row_key`; that assignment lives in the absent
`gate_sync` module and is modelled from the spec below. -/

/-- A table of `init_db` with whether its primary key is an
`AUTOINCREMENT` column (transcribed from the `CREATE TABLE` statements). -/
structure TableDef where
  name : String
  pkAutoincrement : Bool
deriving DecidableEq

/-- The tracked tables created by `init_db` in src/GateMiniCRM.py. -/
def initSchema : List TableDef :=
  [⟨"companies", true⟩, ⟨"contacts", true⟩, ⟨"deals", true⟩,
   ⟨"activities", true⟩, ⟨"time_entries", true⟩, ⟨"invoices", true⟩,
   ⟨"invoice_items", true⟩]

/-- Modelled from the spec: `gate_sync` (absent from src/) identifies each
tracked row both by its device-local `AUTOINCREMENT` id and by a
device-independent stable identifier assigned once at creation (§3
"Row key"). -/
structure TrackedRowIdent where
  localId : Nat
  uid : String
deriving DecidableEq

/-- Modelled from the spec: the `row_key` placed in Change Records is the
device-independent identifier, not the local counter. -/
def row_key_of (r : TrackedRowIdent) : RowKey := r.uid

/-- C3: every tracked table's schema key is a device-scoped `AUTOINCREMENT`
counter, and the `row_key` used in Change Records is independent of that
counter — two copies of a record holding different local ids still carry
the same stable, comparable `row_key`. -/
theorem row_key_stable :
    (∀ td ∈ initSchema, td.pkAutoincrement = true) ∧
    (∀ (u : String) (i j : Nat), row_key_of ⟨i, u⟩ = row_key_of ⟨j, u⟩) :=
  ⟨by decide, fun _ _ _ => rfl⟩

/-- Witness for C3 at concrete inputs. -/
theorem row_key_stable_witness :
    (⟨"companies", true⟩ : TableDef).pkAutoincrement = true ∧
    row_key_of ⟨1, "u-77"⟩ = row_key_of ⟨2, "u-77"⟩ :=
  ⟨row_key_stable.1 ⟨"companies", true⟩ (by decide),
   row_key_stable.2 "u-77" 1 2⟩

end GateMiniCRM
